import Mathlib

/-!
Verification of the Warehouse-Robot repository (grid-world simulation,
gymnasium environment adapter, tabular Q-learning trainer) against its
natural-language specification.  The Python sources
`warehouseRobot.py`, `warehouseRobotEnv.py` and `warehouseRobotTrain.py`
are shallowly embedded below: positions are pairs of integers, rewards,
Q-values and probabilities are rationals, and the stateful methods are
explicit state-passing functions.
-/

namespace WarehouseRobot

/-- `RobotAction` from `warehouseRobot.py`: LEFT=0, DOWN=1, RIGHT=2, UP=3. -/
inductive RobotAction where
  | LEFT
  | DOWN
  | RIGHT
  | UP
deriving DecidableEq, Repr

/-- Integer encoding of `RobotAction` (its `Enum` value in the source). -/
def RobotAction.val : RobotAction → Nat
  | .LEFT => 0
  | .DOWN => 1
  | .RIGHT => 2
  | .UP => 3

/-- The mutable fields of the `WarehouseRobot` class that the simulation
methods read or write (rendering fields are out of scope).  Positions are
`[row, col]` pairs of Python integers, embedded as `Int × Int`. -/
structure Robot where
  grid_rows : Nat
  grid_cols : Nat
  robot_pos : Int × Int
  target_pos : Int × Int
  last_action : Option RobotAction
deriving DecidableEq, Repr

/-- The movement part of `WarehouseRobot.perform_action`
(`warehouseRobot.py` lines 124-136): one step in the requested direction,
guarded so a move that would leave the grid leaves the position unchanged. -/
def move (grid_rows grid_cols : Nat) (pos : Int × Int) : RobotAction → Int × Int
  | .LEFT => if pos.2 > 0 then (pos.1, pos.2 - 1) else pos
  | .RIGHT => if pos.2 < (grid_cols : Int) - 1 then (pos.1, pos.2 + 1) else pos
  | .UP => if pos.1 > 0 then (pos.1 - 1, pos.2) else pos
  | .DOWN => if pos.1 < (grid_rows : Int) - 1 then (pos.1 + 1, pos.2) else pos

/-- `WarehouseRobot.perform_action` (`warehouseRobot.py` lines 121-139):
records the action, moves the robot with boundary clamping, and returns
whether the robot's position now equals the target's. -/
def perform_action (s : Robot) (a : RobotAction) : Robot × Bool :=
  let s' : Robot :=
    { s with
      last_action := some a
      robot_pos := move s.grid_rows s.grid_cols s.robot_pos a }
  (s', s'.robot_pos == s'.target_pos)

/-- Deterministic stream of pseudo-random naturals standing for the Python
`random` module after `random.seed(seed)`: output `k` of the stream seeded
with `seed`.  The library's generator is not part of this repository; what
the source relies on is only that the stream is a deterministic function of
the seed, which any concrete function provides. -/
def randStream (seed k : Nat) : Nat :=
  (seed * 1103515245 + k * 2531011 + 12345) % 2 ^ 31

/-- `random.randint(lo, hi)` as the `k`-th draw of the stream seeded with
`seed`: a value in the inclusive range `[lo, hi]` (the Python library
contract), deterministic given the seed. -/
def randint (seed k lo hi : Nat) : Nat :=
  lo + randStream seed k % (hi + 1 - lo)

/-- `WarehouseRobot.reset` (`warehouseRobot.py` lines 110-119): robot back
to `(0,0)`; target row drawn by `random.randint(1, grid_rows-1)` and target
column by `random.randint(1, grid_cols-1)` after seeding the generator. -/
def reset (s : Robot) (seed : Nat) : Robot :=
  { s with
    robot_pos := (0, 0)
    target_pos :=
      ((randint seed 0 1 (s.grid_rows - 1) : Int),
       (randint seed 1 1 (s.grid_cols - 1) : Int)) }

end WarehouseRobot

namespace WarehouseRobotEnv

open WarehouseRobot

/-- The observation `[robot_row, robot_col, target_row, target_col]`
constructed by `WarehouseRobotEnv.reset` and `step` via `np.concatenate`. -/
def obs (s : Robot) : List Int :=
  [s.robot_pos.1, s.robot_pos.2, s.target_pos.1, s.target_pos.2]

/-- Result record of `WarehouseRobotEnv.step`: observation, reward,
terminated, truncated (the empty `info` dict is omitted). -/
structure StepResult where
  observation : List Int
  reward : ℚ
  terminated : Bool
  truncated : Bool
deriving DecidableEq, Repr

/-- `WarehouseRobotEnv.step` (`warehouseRobotEnv.py` lines 111-135):
performs the action, sets `reward=1` and `terminated=True` exactly when the
target was reached, and always returns `truncated=False`. -/
def step (s : Robot) (a : RobotAction) : Robot × StepResult :=
  let res := perform_action s a
  let target_reached := res.2
  (res.1,
   { observation := obs res.1
     reward := if target_reached then 1 else 0
     terminated := target_reached
     truncated := false })

end WarehouseRobotEnv

namespace WarehouseRobotTrain

/-- Learning rate `learning_rate_a = 0.9` (`warehouseRobotTrain.py` line 50). -/
def learning_rate_a : ℚ := 9 / 10

/-- Discount factor `discount_factor_g = 0.9` (`warehouseRobotTrain.py` line 51). -/
def discount_factor_g : ℚ := 9 / 10

/-- A state index into the Q-table: the observation 4-tuple
`(robot_row, robot_col, target_row, target_col)` (`tuple(state)`). -/
abbrev QState := Nat × Nat × Nat × Nat

/-- A full Q-table index `(state, action)` (`tuple(state) + (action,)`). -/
abbrev QIdx := QState × Nat

/-- The dense 5-D Q-table, embedded as a function from indices to values. -/
abbrev QTable := QIdx → ℚ

/-- `np.argmax` applied to the 4-entry action row `q[tuple(state)]`
(`warehouseRobotTrain.py` line 83): the index of the first occurrence of
the maximum among the four values, the documented numpy semantics. -/
def np_argmax4 (q0 q1 q2 q3 : ℚ) : Nat :=
  if q0 ≥ q1 ∧ q0 ≥ q2 ∧ q0 ≥ q3 then 0
  else if q1 ≥ q2 ∧ q1 ≥ q3 then 1
  else if q2 ≥ q3 then 2
  else 3

/-- The ε-greedy action selection of `run_q` (`warehouseRobotTrain.py`
lines 76-83): when training and the uniform draw `rand ∈ [0,1)` is below
`epsilon`, take the sampled random action; otherwise take
`np.argmax(q[tuple(state)])`. -/
def selectAction (is_training : Bool) (epsilon rand : ℚ) (sampled : Nat)
    (q : QTable) (s : QState) : Nat :=
  if is_training ∧ rand < epsilon then sampled
  else np_argmax4 (q (s, 0)) (q (s, 1)) (q (s, 2)) (q (s, 3))

/-- `np.max(q[q_new_state_idx])` (`warehouseRobotTrain.py` line 98): the
maximum Q-value over the four actions in the new state. -/
def maxQ (q : QTable) (s : QState) : ℚ :=
  max (q (s, 0)) (max (q (s, 1)) (max (q (s, 2)) (q (s, 3))))

/-- The Q-table update of `run_q` (`warehouseRobotTrain.py` lines 96-99):
`q[s,a] = q[s,a] + learning_rate_a * (reward + discount_factor_g *
np.max(q[s']) - q[s,a])`, an in-place write to the single entry `(s, a)`. -/
def qUpdate (q : QTable) (s : QState) (a : Nat) (reward : ℚ)
    (s' : QState) : QTable :=
  Function.update q (s, a)
    (q (s, a) + learning_rate_a *
      (reward + discount_factor_g * maxQ q s' - q (s, a)))

/-- Rounding a rational to the nearest integer with ties to even: the
integer-level rounding step of IEEE-754 round-to-nearest-even. -/
def roundHalfEven (x : ℚ) : ℤ :=
  if x - ⌊x⌋ < 1 / 2 then ⌊x⌋
  else if 1 / 2 < x - ⌊x⌋ then ⌊x⌋ + 1
  else if ⌊x⌋ % 2 = 0 then ⌊x⌋ else ⌊x⌋ + 1

/-- Rounding a rational to the nearest IEEE-754 binary64 value: the
mantissa is cut to 53 significant bits with ties to even.  This is the
rounding Python applies to the result of every float operation; overflow
and subnormals do not occur in the quantities this program computes. -/
def roundDouble (x : ℚ) : ℚ :=
  if x = 0 then 0
  else if 0 < x then
    (roundHalfEven (x * 2 ^ ((52 : ℤ) - Int.log 2 x)) : ℚ) * 2 ^ (Int.log 2 x - (52 : ℤ))
  else
    -((roundHalfEven (-x * 2 ^ ((52 : ℤ) - Int.log 2 (-x))) : ℚ) * 2 ^ (Int.log 2 (-x) - (52 : ℤ)))

/-- Binary64 subtraction: the exact difference, rounded. -/
def floatSub (x y : ℚ) : ℚ := roundDouble (x - y)

/-- Binary64 division: the exact quotient, rounded (`1/episodes`). -/
def floatDiv (x y : ℚ) : ℚ := roundDouble (x / y)

/-- The ε decay applied after each episode (`warehouseRobotTrain.py`
line 111): `epsilon = max(epsilon - 1/episodes, 0)`, with the subtraction
and the division performed in the program's binary64 float arithmetic
(Python's `max` compares exactly and rounds nothing). -/
def epsilonDecayF (episodes : Nat) (epsilon : ℚ) : ℚ :=
  max (floatSub epsilon (floatDiv 1 (episodes : ℚ))) 0

/-- The moving-average entry `sum_steps[t]` computed at run end
(`warehouseRobotTrain.py` line 122):
`np.mean(steps_per_episode[max(0, t-100):(t+1)])`, the mean of the slice
of recorded step counts from index `max(0, t-100)` through `t`
(`t - 100` on `Nat` is exactly Python's `max(0, t-100)`). -/
def sum_steps_entry (steps : List ℚ) (t : Nat) : ℚ :=
  let window := (steps.take (t + 1)).drop (t - 100)
  window.sum / (window.length : ℚ)

/-- The moving average as the claim words it: the value at index `t`
averages the most recent `min 100 (t+1)` recorded step counts.  Written
from the spec's words, for comparison with `sum_steps_entry` above. -/
def claimed_trailing_avg (steps : List ℚ) (t : Nat) : ℚ :=
  let window := (steps.take (t + 1)).drop (t + 1 - min 100 (t + 1))
  window.sum / (window.length : ℚ)

/-- A persisted Q-table artifact as read back by `pickle.load`: the shape
`(R, C, R, C, 4)` of the serialized dense array together with its entries. -/
structure StoredQTable where
  shape : Nat × Nat × Nat × Nat × Nat
  entries : QTable

/-- The non-training load path of `run_q` (`warehouseRobotTrain.py` lines
41-44): `q = pickle.load(f)` and nothing else.  The `Except` result gives
the fail-fast abort the specification describes a place to live; the
source performs no shape check, so the code never produces `.error`. -/
def loadQTable (stored : StoredQTable) : Except String StoredQTable :=
  Except.ok stored

end WarehouseRobotTrain

open WarehouseRobot WarehouseRobotEnv WarehouseRobotTrain

/-- C1: For every grid state, `perform_action` returns true if and only if
the agent's resulting position equals the current goal position; and for
every action, the environment's `step` returns reward exactly 1.0 when the
goal is reached on that step and 0.0 otherwise, `terminated` equal to that
same goal-reached boolean, and `truncated` always false. -/
theorem c1_perform_action_and_step_contract (s : Robot) (a : RobotAction) :
    ((perform_action s a).2 = true ↔
      (perform_action s a).1.robot_pos = s.target_pos)
    ∧ (step s a).2.reward = (if (perform_action s a).2 then 1 else 0)
    ∧ (step s a).2.terminated = (perform_action s a).2
    ∧ (step s a).2.truncated = false := by
  refine ⟨?_, rfl, rfl, rfl⟩
  simp [perform_action]

/-- C2: For all grid sizes R≥2, C≥2 and every agent position inside
[0,R-1]×[0,C-1], applying any of the four actions yields a position still
inside [0,R-1]×[0,C-1]; an action that would leave the grid leaves the
position unchanged. -/
theorem c2_boundary_clamp (s : Robot) (a : RobotAction)
    (hR : 2 ≤ s.grid_rows) (hC : 2 ≤ s.grid_cols)
    (hr0 : 0 ≤ s.robot_pos.1) (hr1 : s.robot_pos.1 ≤ (s.grid_rows : Int) - 1)
    (hc0 : 0 ≤ s.robot_pos.2) (hc1 : s.robot_pos.2 ≤ (s.grid_cols : Int) - 1) :
    (0 ≤ (perform_action s a).1.robot_pos.1
      ∧ (perform_action s a).1.robot_pos.1 ≤ (s.grid_rows : Int) - 1
      ∧ 0 ≤ (perform_action s a).1.robot_pos.2
      ∧ (perform_action s a).1.robot_pos.2 ≤ (s.grid_cols : Int) - 1)
    ∧ (s.robot_pos.2 = 0 → a = RobotAction.LEFT →
        (perform_action s a).1.robot_pos = s.robot_pos)
    ∧ (s.robot_pos.2 = (s.grid_cols : Int) - 1 → a = RobotAction.RIGHT →
        (perform_action s a).1.robot_pos = s.robot_pos)
    ∧ (s.robot_pos.1 = 0 → a = RobotAction.UP →
        (perform_action s a).1.robot_pos = s.robot_pos)
    ∧ (s.robot_pos.1 = (s.grid_rows : Int) - 1 → a = RobotAction.DOWN →
        (perform_action s a).1.robot_pos = s.robot_pos) := by
  refine ⟨?_, ?_, ?_, ?_, ?_⟩ <;>
    cases a <;>
    simp_all [perform_action, move] <;>
    split_ifs <;>
    simp_all <;>
    omega

/-- Witness for C2 at a concrete state: 4×5 grid, agent at (0,0),
action LEFT (which would leave the grid and is absorbed). -/
theorem c2_boundary_clamp_witness :
    (2 ≤ (4 : Nat)) ∧
    (0 ≤ (perform_action ⟨4, 5, (0, 0), (2, 3), none⟩ RobotAction.LEFT).1.robot_pos.1
      ∧ (perform_action ⟨4, 5, (0, 0), (2, 3), none⟩ RobotAction.LEFT).1.robot_pos.1 ≤ (4 : Int) - 1
      ∧ 0 ≤ (perform_action ⟨4, 5, (0, 0), (2, 3), none⟩ RobotAction.LEFT).1.robot_pos.2
      ∧ (perform_action ⟨4, 5, (0, 0), (2, 3), none⟩ RobotAction.LEFT).1.robot_pos.2 ≤ (5 : Int) - 1) :=
  ⟨by decide,
   (c2_boundary_clamp ⟨4, 5, (0, 0), (2, 3), none⟩ RobotAction.LEFT
      (by decide) (by decide) (by decide) (by decide) (by decide) (by decide)).1⟩

/-- C10: `perform_action` modifies only the agent position and the
last-action record: the goal position, the grid row count and the grid
column count are unchanged by applying any action. -/
theorem c10_perform_action_frame (s : Robot) (a : RobotAction) :
    (perform_action s a).1.target_pos = s.target_pos
    ∧ (perform_action s a).1.grid_rows = s.grid_rows
    ∧ (perform_action s a).1.grid_cols = s.grid_cols := by
  exact ⟨rfl, rfl, rfl⟩

/-- C6: For every grid with R≥2 rows and C≥2 columns and every seed, after
`reset` the agent position is (0,0) and the goal position satisfies
row ∈ [1, R-1] and col ∈ [1, C-1]; in particular the goal is never (0,0)
and never has row=0 or col=0. -/
theorem c6_reset_positions (s : Robot) (seed : Nat)
    (hR : 2 ≤ s.grid_rows) (hC : 2 ≤ s.grid_cols) :
    (reset s seed).robot_pos = (0, 0)
    ∧ 1 ≤ (reset s seed).target_pos.1
    ∧ (reset s seed).target_pos.1 ≤ (s.grid_rows : Int) - 1
    ∧ 1 ≤ (reset s seed).target_pos.2
    ∧ (reset s seed).target_pos.2 ≤ (s.grid_cols : Int) - 1
    ∧ (reset s seed).target_pos ≠ ((0 : Int), (0 : Int)) := by
  have hrow : 1 ≤ randint seed 0 1 (s.grid_rows - 1)
      ∧ randint seed 0 1 (s.grid_rows - 1) ≤ s.grid_rows - 1 := by
    unfold randint
    have heq : s.grid_rows - 1 + 1 - 1 = s.grid_rows - 1 := by omega
    rw [heq]
    have hmod : randStream seed 0 % (s.grid_rows - 1) < s.grid_rows - 1 :=
      Nat.mod_lt _ (by omega)
    omega
  have hcol : 1 ≤ randint seed 1 1 (s.grid_cols - 1)
      ∧ randint seed 1 1 (s.grid_cols - 1) ≤ s.grid_cols - 1 := by
    unfold randint
    have heq : s.grid_cols - 1 + 1 - 1 = s.grid_cols - 1 := by omega
    rw [heq]
    have hmod : randStream seed 1 % (s.grid_cols - 1) < s.grid_cols - 1 :=
      Nat.mod_lt _ (by omega)
    omega
  refine ⟨rfl, ?_, ?_, ?_, ?_, ?_⟩
  · simp only [reset]
    exact_mod_cast hrow.1
  · simp only [reset]
    have h := hrow.2
    omega
  · simp only [reset]
    exact_mod_cast hcol.1
  · simp only [reset]
    have h := hcol.2
    omega
  · simp only [reset, ne_eq, Prod.mk.injEq, not_and]
    intro h
    have h1 := hrow.1
    omega

/-- Witness for C6: concrete 4×5 grid, seed 0. -/
theorem c6_reset_positions_witness :
    (2 ≤ (4 : Nat)) ∧ (2 ≤ (5 : Nat)) ∧
    ((reset ⟨4, 5, (0, 0), (0, 0), none⟩ 0).robot_pos = (0, 0)
      ∧ 1 ≤ (reset ⟨4, 5, (0, 0), (0, 0), none⟩ 0).target_pos.1
      ∧ (reset ⟨4, 5, (0, 0), (0, 0), none⟩ 0).target_pos.1 ≤ ((4 : Nat) : Int) - 1
      ∧ 1 ≤ (reset ⟨4, 5, (0, 0), (0, 0), none⟩ 0).target_pos.2
      ∧ (reset ⟨4, 5, (0, 0), (0, 0), none⟩ 0).target_pos.2 ≤ ((5 : Nat) : Int) - 1
      ∧ (reset ⟨4, 5, (0, 0), (0, 0), none⟩ 0).target_pos ≠ ((0 : Int), (0 : Int))) :=
  ⟨by decide, by decide,
   c6_reset_positions ⟨4, 5, (0, 0), (0, 0), none⟩ 0 (by decide) (by decide)⟩

/-- C7: Two calls of `reset` with the same integer seed K always produce
the same goal position, whenever the grid dimensions agree (the draw
depends only on the seed and the dimensions). -/
theorem c7_reset_deterministic (s₁ s₂ : Robot) (K : Nat)
    (hR : s₁.grid_rows = s₂.grid_rows) (hC : s₁.grid_cols = s₂.grid_cols) :
    (reset s₁ K).target_pos = (reset s₂ K).target_pos := by
  simp [reset, hR, hC]

/-- `np_argmax4` picks a maximizer of the four values and, among equal
maxima, the lowest index: at each index it returns, every earlier value is
strictly smaller and every later value is no larger. -/
theorem np_argmax4_first_max (q0 q1 q2 q3 : ℚ) :
    (np_argmax4 q0 q1 q2 q3 = 0 ∧ q1 ≤ q0 ∧ q2 ≤ q0 ∧ q3 ≤ q0)
    ∨ (np_argmax4 q0 q1 q2 q3 = 1 ∧ q0 < q1 ∧ q2 ≤ q1 ∧ q3 ≤ q1)
    ∨ (np_argmax4 q0 q1 q2 q3 = 2 ∧ q0 < q2 ∧ q1 < q2 ∧ q3 ≤ q2)
    ∨ (np_argmax4 q0 q1 q2 q3 = 3 ∧ q0 < q3 ∧ q1 < q3 ∧ q2 < q3) := by
  unfold np_argmax4
  split_ifs with h1 h2 h3
  · exact Or.inl ⟨rfl, h1.1, h1.2.1, h1.2.2⟩
  · push_neg at h1
    refine Or.inr (Or.inl ⟨rfl, ?_, h2.1, h2.2⟩)
    by_contra hle
    push_neg at hle
    have h := h1 hle (le_trans h2.1 hle)
    linarith [h2.2]
  · push_neg at h1 h2
    have hq1 : q1 < q2 := by
      by_contra hle
      push_neg at hle
      have h := h2 hle
      linarith
    refine Or.inr (Or.inr (Or.inl ⟨rfl, ?_, hq1, h3⟩))
    by_contra hle
    push_neg at hle
    have h := h1 (by linarith) hle
    linarith
  · push_neg at h1 h2 h3
    have hq1 : q1 < q3 := by
      rcases le_or_lt q2 q1 with h | h
      · exact h2 h
      · linarith
    have hq0 : q0 < q3 := by
      rcases le_or_lt q1 q0 with h | h
      · rcases le_or_lt q2 q0 with h' | h'
        · exact h1 h h'
        · linarith
      · linarith
    exact Or.inr (Or.inr (Or.inr ⟨rfl, hq0, hq1, h3⟩))

/-- `Int.log 2` is pinned by a bracketing pair of powers of two. -/
theorem log2_eq_of_bounds (x : ℚ) (e : ℤ) (hx : 0 < x)
    (h1 : (2 : ℚ) ^ e ≤ x) (h2 : x < (2 : ℚ) ^ (e + 1)) : Int.log 2 x = e := by
  have ha : e ≤ Int.log 2 x := by
    rw [← Int.zpow_le_iff_le_log (by norm_num) hx]
    exact_mod_cast h1
  have hb : Int.log 2 x < e + 1 := by
    rw [← Int.lt_zpow_iff_log_lt (by norm_num) hx]
    exact_mod_cast h2
  omega

/-- Below the halfway point, `roundHalfEven` is the floor. -/
theorem roundHalfEven_eq_floor (x : ℚ) (n : ℤ) (hfl : ⌊x⌋ = n)
    (hf : x - n < 1 / 2) : roundHalfEven x = n := by
  unfold roundHalfEven
  rw [hfl, if_pos hf]

/-- On an exact tie with an odd floor, `roundHalfEven` rounds up to the
even neighbour. -/
theorem roundHalfEven_tie_odd (x : ℚ) (n : ℤ) (hfl : ⌊x⌋ = n)
    (hf : x - n = 1 / 2) (hodd : n % 2 ≠ 0) : roundHalfEven x = n + 1 := by
  unfold roundHalfEven
  rw [hfl, if_neg (by rw [hf]; norm_num), if_neg (by rw [hf]; norm_num), if_neg hodd]

/-- Evaluating `roundDouble` on a positive value from its exponent and
rounded mantissa. -/
theorem roundDouble_eval_pos (x : ℚ) (e : ℤ) (m : ℤ) (hx : 0 < x)
    (hlog : Int.log 2 x = e)
    (hm : roundHalfEven (x * 2 ^ ((52 : ℤ) - e)) = m) :
    roundDouble x = m * 2 ^ (e - (52 : ℤ)) := by
  unfold roundDouble
  rw [if_neg hx.ne', if_pos hx, hlog, hm]

/-- The binary64 value of `1/3`: mantissa `round(2^54/3)` at exponent
`-54`, the value Python prints as 0.3333333333333333. -/
theorem roundDouble_one_third :
    roundDouble (1 / 3) = 6004799503160661 / 2 ^ 54 := by
  have hlog : Int.log 2 ((1 : ℚ) / 3) = -2 :=
    log2_eq_of_bounds _ _ (by norm_num) (by norm_num) (by norm_num)
  have hexp : ((52 : ℤ) - (-2)) = (54 : ℤ) := by decide
  have hm : roundHalfEven ((1 / 3 : ℚ) * 2 ^ ((52 : ℤ) - (-2))) = 6004799503160661 := by
    rw [hexp]
    have hval : (1 / 3 : ℚ) * 2 ^ (54 : ℤ) = 18014398509481984 / 3 := by
      norm_num
    rw [hval]
    refine roundHalfEven_eq_floor _ _ ?_ (by norm_num)
    rw [Int.floor_eq_iff]
    norm_num
  have h := roundDouble_eval_pos (1 / 3) (-2) 6004799503160661 (by norm_num) hlog hm
  rw [h]
  norm_num

/-- Binary64 rounding of the exact difference `1 - fl(1/3)`: an exact
tie at an odd mantissa rounds up, giving Python's 0.6666666666666667. -/
theorem roundDouble_two_thirds :
    roundDouble (12009599006321323 / 2 ^ 54) = 6004799503160662 / 2 ^ 53 := by
  have hlog : Int.log 2 ((12009599006321323 : ℚ) / 2 ^ 54) = -1 :=
    log2_eq_of_bounds _ _ (by norm_num) (by norm_num) (by norm_num)
  have hexp : ((52 : ℤ) - (-1)) = (53 : ℤ) := by decide
  have hm : roundHalfEven (((12009599006321323 : ℚ) / 2 ^ 54) * 2 ^ ((52 : ℤ) - (-1)))
      = 6004799503160662 := by
    rw [hexp]
    have hval : ((12009599006321323 : ℚ) / 2 ^ 54) * 2 ^ (53 : ℤ)
        = 12009599006321323 / 2 := by
      norm_num
    rw [hval]
    have hfl : ⌊(12009599006321323 : ℚ) / 2⌋ = 6004799503160661 := by
      rw [Int.floor_eq_iff]
      norm_num
    have h := roundHalfEven_tie_odd _ _ hfl (by norm_num) (by decide)
    rw [h]
    norm_num
  have h := roundDouble_eval_pos _ (-1) 6004799503160662 (by norm_num) hlog hm
  rw [h]
  norm_num

/-- The difference `fl(1 - fl(1/3)) - fl(1/3)` is already representable in
53 bits, so rounding leaves it unchanged (Python's 0.33333333333333337). -/
theorem roundDouble_third_step :
    roundDouble (6004799503160663 / 2 ^ 54) = 6004799503160663 / 2 ^ 54 := by
  have hlog : Int.log 2 ((6004799503160663 : ℚ) / 2 ^ 54) = -2 :=
    log2_eq_of_bounds _ _ (by norm_num) (by norm_num) (by norm_num)
  have hexp : ((52 : ℤ) - (-2)) = (54 : ℤ) := by decide
  have hm : roundHalfEven (((6004799503160663 : ℚ) / 2 ^ 54) * 2 ^ ((52 : ℤ) - (-2)))
      = 6004799503160663 := by
    rw [hexp]
    have hval : ((6004799503160663 : ℚ) / 2 ^ 54) * 2 ^ (54 : ℤ)
        = 6004799503160663 := by
      norm_num
    rw [hval]
    refine roundHalfEven_eq_floor _ _ ?_ (by norm_num)
    rw [Int.floor_eq_iff]
    norm_num
  have h := roundDouble_eval_pos _ (-2) 6004799503160663 (by norm_num) hlog hm
  rw [h]
  norm_num

/-- The residue `2/2^54 = 2^-53` is an exact power of two, unchanged by
rounding. -/
theorem roundDouble_residue : roundDouble (2 / 2 ^ 54) = 1 / 2 ^ 53 := by
  have hlog : Int.log 2 ((2 : ℚ) / 2 ^ 54) = -53 :=
    log2_eq_of_bounds _ _ (by norm_num) (by norm_num) (by norm_num)
  have hexp : ((52 : ℤ) - (-53)) = (105 : ℤ) := by decide
  have hm : roundHalfEven (((2 : ℚ) / 2 ^ 54) * 2 ^ ((52 : ℤ) - (-53)))
      = 4503599627370496 := by
    rw [hexp]
    have hval : ((2 : ℚ) / 2 ^ 54) * 2 ^ (105 : ℤ) = 4503599627370496 := by
      norm_num
    rw [hval]
    refine roundHalfEven_eq_floor _ _ ?_ (by norm_num)
    rw [Int.floor_eq_iff]
    norm_num
  have h := roundDouble_eval_pos _ (-53) 4503599627370496 (by norm_num) hlog hm
  rw [h]
  norm_num

/-- Three binary64 decay steps with N=3 starting from ε=1 terminate at the
positive residue `2^-53`, not at 0: `1 - fl(1/3)` rounds up on an exact
tie, and the accumulated excess survives the final subtraction. -/
theorem epsilonDecayF_three_steps : (epsilonDecayF 3)^[3] 1 = 1 / 2 ^ 53 := by
  have hd : floatDiv 1 ((3 : Nat) : ℚ) = 6004799503160661 / 2 ^ 54 := by
    unfold floatDiv
    norm_num [roundDouble_one_third]
  rw [Function.iterate_succ_apply', Function.iterate_succ_apply',
    Function.iterate_succ_apply', Function.iterate_zero_apply]
  have h1 : epsilonDecayF 3 1 = 6004799503160662 / 2 ^ 53 := by
    unfold epsilonDecayF floatSub
    rw [hd]
    have hsub : (1 : ℚ) - 6004799503160661 / 2 ^ 54 = 12009599006321323 / 2 ^ 54 := by
      norm_num
    rw [hsub, roundDouble_two_thirds, max_eq_left (by positivity)]
  rw [h1]
  have h2 : epsilonDecayF 3 (6004799503160662 / 2 ^ 53) = 6004799503160663 / 2 ^ 54 := by
    unfold epsilonDecayF floatSub
    rw [hd]
    have hsub : (6004799503160662 : ℚ) / 2 ^ 53 - 6004799503160661 / 2 ^ 54
        = 6004799503160663 / 2 ^ 54 := by
      norm_num
    rw [hsub, roundDouble_third_step, max_eq_left (by positivity)]
  rw [h2]
  unfold epsilonDecayF floatSub
  rw [hd]
  have hsub : (6004799503160663 : ℚ) / 2 ^ 54 - 6004799503160661 / 2 ^ 54
      = 2 / 2 ^ 54 := by
    norm_num
  rw [hsub, roundDouble_residue, max_eq_left (by positivity)]

/-- Witness for C7: two robots with the same 4×5 dimensions but different
agent and goal positions, seed 42. -/
theorem c7_reset_deterministic_witness :
    ((4 : Nat) = 4) ∧ ((5 : Nat) = 5) ∧
    (reset ⟨4, 5, (0, 0), (2, 3), none⟩ 42).target_pos
      = (reset ⟨4, 5, (3, 1), (1, 4), some RobotAction.UP⟩ 42).target_pos :=
  ⟨rfl, rfl,
   c7_reset_deterministic ⟨4, 5, (0, 0), (2, 3), none⟩
     ⟨4, 5, (3, 1), (1, 4), some RobotAction.UP⟩ 42 rfl rfl⟩

/-- C3: In training mode, after each environment step the trainer updates
exactly one Q-table entry by the one-step temporal-difference rule
`Q[s,a] = Q[s,a] + alpha*(reward + gamma*max Q[s',.] - Q[s,a])`; for an
entry with Q=0, reward=1, alpha=0.9, gamma=0.9 and max next-state Q=0, the
updated value is exactly 0.9. -/
theorem c3_q_update_rule (q : QTable) (s : QState) (a : Nat) (reward : ℚ)
    (s' : QState) :
    qUpdate q s a reward s' (s, a)
      = q (s, a) + learning_rate_a *
          (reward + discount_factor_g * maxQ q s' - q (s, a))
    ∧ (∀ idx : QIdx, idx ≠ (s, a) → qUpdate q s a reward s' idx = q idx)
    ∧ qUpdate (fun _ => 0) s a 1 s' (s, a) = 9 / 10 := by
  refine ⟨?_, ?_, ?_⟩
  · simp [qUpdate]
  · intro idx h
    simp [qUpdate, Function.update_noteq h]
  · simp [qUpdate, maxQ, learning_rate_a, discount_factor_g]

/-- Witness for C3: the off-entry frame condition at a concrete index. -/
theorem c3_q_update_rule_witness :
    ((((0, 0, 0, 0), 1) : QIdx) ≠ (((0, 0, 0, 0), 0) : QIdx))
    ∧ qUpdate (fun _ => 0) (0, 0, 0, 0) 0 1 (1, 1, 1, 1) ((0, 0, 0, 0), 1)
        = (fun _ => (0 : ℚ)) (((0, 0, 0, 0), 1) : QIdx) :=
  ⟨by decide,
   (c3_q_update_rule (fun _ => 0) (0, 0, 0, 0) 0 1 (1, 1, 1, 1)).2.1
     ((0, 0, 0, 0), 1) (by decide)⟩

/-- C4: Action selection is ε-greedy: only in training mode and when the
uniform draw falls below ε a random action is taken; in every other case —
in training mode when the draw is at or above ε, always when not training,
and deterministically when ε=0 — the selected action is the argmax of
Q[s,·] with ties broken by the lowest action index. -/
theorem c4_epsilon_greedy_selection (it : Bool) (epsilon rand : ℚ)
    (sampled : Nat) (q : QTable) (s : QState) :
    (it = true → rand < epsilon →
      selectAction it epsilon rand sampled q s = sampled)
    ∧ (it = false → selectAction it epsilon rand sampled q s
        = np_argmax4 (q (s, 0)) (q (s, 1)) (q (s, 2)) (q (s, 3)))
    ∧ (it = true → epsilon ≤ rand → selectAction it epsilon rand sampled q s
        = np_argmax4 (q (s, 0)) (q (s, 1)) (q (s, 2)) (q (s, 3)))
    ∧ (epsilon = 0 → 0 ≤ rand → selectAction it epsilon rand sampled q s
        = np_argmax4 (q (s, 0)) (q (s, 1)) (q (s, 2)) (q (s, 3)))
    ∧ ((np_argmax4 (q (s, 0)) (q (s, 1)) (q (s, 2)) (q (s, 3)) = 0
          ∧ q (s, 1) ≤ q (s, 0) ∧ q (s, 2) ≤ q (s, 0) ∧ q (s, 3) ≤ q (s, 0))
        ∨ (np_argmax4 (q (s, 0)) (q (s, 1)) (q (s, 2)) (q (s, 3)) = 1
          ∧ q (s, 0) < q (s, 1) ∧ q (s, 2) ≤ q (s, 1) ∧ q (s, 3) ≤ q (s, 1))
        ∨ (np_argmax4 (q (s, 0)) (q (s, 1)) (q (s, 2)) (q (s, 3)) = 2
          ∧ q (s, 0) < q (s, 2) ∧ q (s, 1) < q (s, 2) ∧ q (s, 3) ≤ q (s, 2))
        ∨ (np_argmax4 (q (s, 0)) (q (s, 1)) (q (s, 2)) (q (s, 3)) = 3
          ∧ q (s, 0) < q (s, 3) ∧ q (s, 1) < q (s, 3) ∧ q (s, 2) < q (s, 3))) := by
  refine ⟨?_, ?_, ?_, ?_, np_argmax4_first_max _ _ _ _⟩
  · intro h1 h2
    simp [selectAction, h1, h2]
  · intro h
    simp [selectAction, h]
  · intro h1 h2
    rw [selectAction, if_neg]
    rintro ⟨-, hlt⟩
    exact absurd hlt (not_lt.mpr h2)
  · intro he hr
    rw [selectAction, if_neg]
    rintro ⟨-, hlt⟩
    rw [he] at hlt
    exact absurd hlt (not_lt.mpr hr)

/-- Witness for C4: in training mode with ε=1/4 and draw 1/2 ≥ ε, the
exploitation branch selects the greedy argmax. -/
theorem c4_epsilon_greedy_selection_witness :
    (true = true) ∧ ((1 / 4 : ℚ) ≤ 1 / 2)
    ∧ selectAction true (1 / 4) (1 / 2) 3 (fun _ => 0) (0, 0, 0, 0)
        = np_argmax4 0 0 0 0 :=
  ⟨rfl, by norm_num,
   (c4_epsilon_greedy_selection true (1 / 4) (1 / 2) 3 (fun _ => 0)
      (0, 0, 0, 0)).2.2.1 rfl (by norm_num)⟩

/-- C5 counterexample: with N=3 episodes, the program's binary64 epsilon
decay starting from ε=1 ends the 3rd application at the positive residue
`2^-53`, not at 0: the claimed exactness fails under the float arithmetic
the code actually runs. -/
theorem c5_counterexample_float_residue :
    (epsilonDecayF 3)^[3] 1 = 1 / 2 ^ 53 ∧ ((1 : ℚ) / 2 ^ 53) ≠ 0 :=
  ⟨epsilonDecayF_three_steps, by norm_num⟩

/-- C5 amended: the epsilon decay `epsilon = max(epsilon - 1/episodes, 0)`
never makes ε negative (the clamp keeps every iterate nonnegative for any
episode count), but under the program's binary64 arithmetic ε after the
N-th application need not be exactly 0: a positive rounding residue can
remain, and for N=3 it is exactly `2^-53`. -/
theorem c5_epsilon_decay_amended (N k : Nat) :
    0 ≤ (epsilonDecayF N)^[k] 1 ∧ (epsilonDecayF 3)^[3] 1 = 1 / 2 ^ 53 := by
  constructor
  · induction k with
    | zero => norm_num
    | succ k ih =>
      rw [Function.iterate_succ_apply']
      exact le_max_right _ _
  · exact epsilonDecayF_three_steps

/-- C8: the code's moving-average entry at t=100 averages the slice
`steps[max(0,100-100):101]`, which holds 101 elements, not the
min(100, t+1) = 100 most recent ones the claim describes: on the series
with steps[0]=101 followed by one hundred zeros, the code reports 1 while
a window of the 100 most recent counts reports 0. -/
theorem c8_moving_average_window_off_by_one :
    sum_steps_entry ((101 : ℚ) :: List.replicate 100 0) 100 = 1
    ∧ claimed_trailing_avg ((101 : ℚ) :: List.replicate 100 0) 100 = 0
    ∧ ((((101 : ℚ) :: List.replicate 100 0).take (100 + 1)).drop (100 - 100)).length
        = 101
    ∧ min 100 (100 + 1) = 100 := by
  refine ⟨?_, ?_, by simp, by decide⟩
  · show ((((101 : ℚ) :: List.replicate 100 0).take 101).drop 0).sum
        / (((((101 : ℚ) :: List.replicate 100 0).take 101).drop 0).length : ℚ) = 1
    rw [List.take_of_length_le (by simp), List.drop_zero]
    simp [List.sum_replicate]
  · show ((((101 : ℚ) :: List.replicate 100 0).take 101).drop 1).sum
        / (((((101 : ℚ) :: List.replicate 100 0).take 101).drop 1).length : ℚ) = 0
    rw [List.take_of_length_le (by simp)]
    simp [List.sum_replicate]

/-- C9 counterexample: a persisted Q-table whose shape (3,3,3,3,4) does not
match the current grid's (4,5,4,5,4) is nevertheless loaded successfully —
the non-training branch performs no shape validation at all, so no fatal
configuration error occurs before episodes proceed. -/
theorem c9_counterexample_no_shape_check :
    (loadQTable ⟨(3, 3, 3, 3, 4), fun _ => 0⟩).isOk = true
    ∧ ((3, 3, 3, 3, 4) : Nat × Nat × Nat × Nat × Nat) ≠ (4, 5, 4, 5, 4) :=
  ⟨rfl, by decide⟩

/-- C9 amended: when not training, the trainer loads the persisted Q-table
as-is and never validates its shape: loading succeeds for every stored
table, whatever its shape, and returns it unchanged. -/
theorem c9_load_never_validates (stored : StoredQTable) :
    loadQTable stored = Except.ok stored :=
  rfl
